import Mathlib

/-!
Shallow embedding of `dgllife/model/model_zoo/gcn_link_predictor.py`.

The file defines two modules:
  * `GCN` — a stack of graph-convolution layers (the encoder);
  * `GCNLinkPredictor` — a stack of linear layers scoring node pairs.

Feature matrices are modelled as `List (List ℝ)`.  The external
graph-convolution primitive (`dgl.nn.pytorch.GraphConv`) is abstract: the
forward pass is parameterised by a function `conv` applying one layer to a
graph and a feature matrix.  Dropout is modelled by threading an abstract
random state `σ` through the forward pass: in training mode the (abstract)
primitive `trainDrop` consumes the state, outside training mode dropout is
the identity and leaves the state untouched, matching `torch.nn.Dropout`.
Dropout rates are modelled as rationals.
-/

/-- A feature matrix: a list of rows of real numbers. -/
abbrev Mat : Type := List (List ℝ)

/-- The activation configured on a graph-convolution layer:
`F.relu` or `None` in the source. -/
inductive ActKind : Type
  | relu : ActKind
  | noAct : ActKind
deriving DecidableEq

/-- One `GraphConv(in_feats, out_feats, activation=...)` layer.  The layer
owns its weight tensor (created by the primitive's default scheme). -/
structure GraphConv : Type where
  inFeats : ℕ
  outFeats : ℕ
  act : ActKind
  weight : Mat

/-- The architecture of a graph-convolution layer: input width, output
width and activation (everything except the learned weights). -/
def GraphConv.arch (l : GraphConv) : ℕ × ℕ × ActKind :=
  (l.inFeats, l.outFeats, l.act)

/-- Construction of a `GraphConv` layer: the primitive creates its weight
with the framework-default scheme, abstracted as `initW`. -/
def graphConvNew (initW : ℕ → ℕ → Mat) (i o : ℕ) (a : ActKind) : GraphConv :=
  { inFeats := i, outFeats := o, act := a, weight := initW i o }

/-- The `GCN` module: the layer stack `self.layers` and the dropout rate
of `self.dropout`. -/
structure GCN : Type where
  layers : List GraphConv
  dropoutRate : ℚ

/-- `GCN.__init__`: input layer `in_feats → n_hidden` with ReLU, then
`num_layers - 2` hidden layers `n_hidden → n_hidden` with ReLU, then an
output layer `n_hidden → out_feats` with no activation.  `num_layers` is a
Python `int`, so it is modelled as `ℤ`; `range(num_layers - 2)` is empty
when `num_layers - 2 ≤ 0`. -/
def GCN.init (initW : ℕ → ℕ → Mat) (inFeats nHidden outFeats : ℕ)
    (numLayers : ℤ) (dropout : ℚ) : GCN :=
  { layers :=
      graphConvNew initW inFeats nHidden ActKind.relu ::
        (List.replicate (numLayers - 2).toNat
            (graphConvNew initW nHidden nHidden ActKind.relu) ++
          [graphConvNew initW nHidden outFeats ActKind.noAct]),
    dropoutRate := dropout }

/-- `GCN.reset_parameters`: each layer's `reset_parameters` re-creates its
weight with the framework-default scheme `initW`; nothing else changes. -/
def GraphConv.resetParams (initW : ℕ → ℕ → Mat) (l : GraphConv) : GraphConv :=
  { l with weight := initW l.inFeats l.outFeats }

/-- `GCN.reset_parameters`: reset every layer in the stack. -/
def GCN.resetParameters (initW : ℕ → ℕ → Mat) (m : GCN) : GCN :=
  { m with layers := m.layers.map (GraphConv.resetParams initW) }

/-- The dropout primitive (`torch.nn.Dropout`) applied to a feature
matrix: in training mode it runs the abstract randomised transformation
`trainDrop` at the configured rate, consuming the random state; outside
training mode it is the identity. -/
def dropoutRun {σ : Type} (trainDrop : ℚ → Mat → σ → Mat × σ) (rate : ℚ)
    (training : Bool) (f : Mat) (s : σ) : Mat × σ :=
  if training then trainDrop rate f s else (f, s)

/-- The loop body of `GCN.forward`: `for i, layer in enumerate(self.layers):
if i != 0: feats = self.dropout(feats); feats = layer(g, feats)`. -/
def gcnForwardAux {G σ : Type} (conv : G → GraphConv → Mat → Mat)
    (dp : Mat → σ → Mat × σ) (g : G) :
    ℕ → List GraphConv → Mat → σ → Mat × σ
  | _, [], feats, s => (feats, s)
  | i, layer :: rest, feats, s =>
      let fs := if i = 0 then (feats, s) else dp feats s
      gcnForwardAux conv dp g (i + 1) rest (conv g layer fs.1) fs.2

/-- `GCN.forward(g, feats)`: run the enumerated layer loop from index 0,
with dropout given by the module's rate and the global training flag. -/
def GCN.forward {G σ : Type} (conv : G → GraphConv → Mat → Mat)
    (trainDrop : ℚ → Mat → σ → Mat × σ) (training : Bool) (g : G)
    (m : GCN) (feats : Mat) (s : σ) : Mat × σ :=
  gcnForwardAux conv (dropoutRun trainDrop m.dropoutRate training) g 0
    m.layers feats s

/-- `shape m r c`: the matrix has `r` rows, each of length `c`. -/
def shape (m : Mat) (r c : ℕ) : Prop :=
  m.length = r ∧ ∀ row ∈ m, row.length = c

/-- Claim C1: for `num_layers ≥ 2` the Encoder's stack has exactly
`num_layers` graph-convolution layers; the first maps `input_width` to
`hidden_width` with ReLU, layers at positions `1 .. num_layers - 2` map
`hidden_width` to `hidden_width` with ReLU, and the last maps
`hidden_width` to `output_width` with no activation. -/
theorem gcn_init_stack (initW : ℕ → ℕ → Mat) (inF nH outF : ℕ) (n : ℤ)
    (p : ℚ) (hn : 2 ≤ n) :
    (GCN.init initW inF nH outF n p).layers.length = n.toNat ∧
    (GCN.init initW inF nH outF n p).layers.head? =
      some (graphConvNew initW inF nH ActKind.relu) ∧
    (∀ k : ℕ, 0 < k → k < n.toNat - 1 →
      (GCN.init initW inF nH outF n p).layers[k]? =
        some (graphConvNew initW nH nH ActKind.relu)) ∧
    (GCN.init initW inF nH outF n p).layers[n.toNat - 1]? =
      some (graphConvNew initW nH outF ActKind.noAct) := by
  have hm : (n - 2).toNat + 2 = n.toNat := by omega
  refine ⟨?_, rfl, ?_, ?_⟩
  · simp [GCN.init]
    omega
  · intro k hk0 hk1
    obtain ⟨j, rfl⟩ : ∃ j, k = j + 1 := ⟨k - 1, by omega⟩
    have hj : j < (n - 2).toNat := by omega
    simp [GCN.init, List.getElem?_append, hj]
  · have h1 : n.toNat - 1 = (n - 2).toNat + 1 := by omega
    rw [h1]
    simp [GCN.init, List.getElem?_append]

/-- Witness for C1 at `num_layers = 3`. -/
theorem gcn_init_stack_witness :
    (2 : ℤ) ≤ 3 ∧
    ((GCN.init (fun _ _ => []) 16 32 8 3 (1/2)).layers.length =
        (3 : ℤ).toNat ∧
      (GCN.init (fun _ _ => []) 16 32 8 3 (1/2)).layers.head? =
        some (graphConvNew (fun _ _ => []) 16 32 ActKind.relu) ∧
      (∀ k : ℕ, 0 < k → k < (3 : ℤ).toNat - 1 →
        (GCN.init (fun _ _ => []) 16 32 8 3 (1/2)).layers[k]? =
          some (graphConvNew (fun _ _ => []) 32 32 ActKind.relu)) ∧
      (GCN.init (fun _ _ => []) 16 32 8 3 (1/2)).layers[(3 : ℤ).toNat - 1]? =
        some (graphConvNew (fun _ _ => []) 32 8 ActKind.noAct)) :=
  ⟨by decide, gcn_init_stack (fun _ _ => []) 16 32 8 3 (1/2) (by decide)⟩

/-- The spec's description of the Encoder forward pass: the first layer
receives the input features without dropout; every later layer first
applies dropout to the incoming features and then its graph-convolution
transform; the result is the final layer's output (the input when the
stack is empty). -/
def gcnForwardFromSpec {G σ : Type} (conv : G → GraphConv → Mat → Mat)
    (dp : Mat → σ → Mat × σ) (g : G) :
    List GraphConv → Mat → σ → Mat × σ
  | [], feats, s => (feats, s)
  | l0 :: rest, feats, s =>
      rest.foldl
        (fun acc l =>
          let fs := dp acc.1 acc.2
          (conv g l fs.1, fs.2))
        (conv g l0 feats, s)

lemma gcnForwardAux_succ {G σ : Type} (conv : G → GraphConv → Mat → Mat)
    (dp : Mat → σ → Mat × σ) (g : G) :
    ∀ (ls : List GraphConv) (i : ℕ) (f : Mat) (s : σ),
      gcnForwardAux conv dp g (i + 1) ls f s =
        ls.foldl
          (fun acc l =>
            let fs := dp acc.1 acc.2
            (conv g l fs.1, fs.2))
          (f, s) := by
  intro ls
  induction ls with
  | nil => intro i f s; rfl
  | cons l rest ih =>
      intro i f s
      simp only [gcnForwardAux, List.foldl_cons]
      rw [ih (i + 1)]
      simp

/-- Claim C2: the Encoder's forward pass equals the spec's description —
layers are applied in stack order, each layer after the first sees
dropout applied to its input, the first layer does not, and the result is
the final layer's output; moreover dropout is the identity outside
training mode. -/
theorem gcn_forward_spec_order {G σ : Type} (conv : G → GraphConv → Mat → Mat)
    (trainDrop : ℚ → Mat → σ → Mat × σ) (training : Bool) (g : G)
    (m : GCN) (feats : Mat) (s : σ) :
    GCN.forward conv trainDrop training g m feats s =
      gcnForwardFromSpec conv (dropoutRun trainDrop m.dropoutRate training) g
        m.layers feats s ∧
    (∀ (r : ℚ) (f : Mat) (t : σ), dropoutRun trainDrop r false f t = (f, t)) := by
  constructor
  · have hfw : GCN.forward conv trainDrop training g m feats s =
        gcnForwardAux conv (dropoutRun trainDrop m.dropoutRate training) g 0
          m.layers feats s := rfl
    rw [hfw]
    cases m.layers with
    | nil => rfl
    | cons l0 rest =>
        have h1 : gcnForwardAux conv
              (dropoutRun trainDrop m.dropoutRate training) g 0
              (l0 :: rest) feats s =
            gcnForwardAux conv (dropoutRun trainDrop m.dropoutRate training)
              g 1 rest (conv g l0 feats) s := rfl
        rw [h1]
        exact gcnForwardAux_succ conv _ g rest 0 _ s
  · intro r f t
    rfl

lemma gcnForwardAux_shape {G σ : Type} (conv : G → GraphConv → Mat → Mat)
    (dp : Mat → σ → Mat × σ) (g : G) (N : ℕ)
    (hconv : ∀ (l : GraphConv) (f : Mat) (M : ℕ),
      f.length = M → shape (conv g l f) M l.outFeats)
    (hdp : ∀ (f : Mat) (s : σ), ((dp f s).1).length = f.length) :
    ∀ (mids : List GraphConv) (lastL : GraphConv) (i : ℕ) (f : Mat) (s : σ),
      f.length = N →
      shape ((gcnForwardAux conv dp g i (mids ++ [lastL]) f s).1) N
        lastL.outFeats := by
  intro mids
  induction mids with
  | nil =>
      intro lastL i f s hf
      simp only [List.nil_append, gcnForwardAux]
      rcases Decidable.em (i = 0) with h0 | h0
      · simpa [h0] using hconv lastL f N hf
      · have hlen : ((dp f s).1).length = N := by rw [hdp, hf]
        simpa [h0] using hconv lastL (dp f s).1 N hlen
  | cons l rest ih =>
      intro lastL i f s hf
      simp only [List.cons_append, gcnForwardAux]
      rcases Decidable.em (i = 0) with h0 | h0
      · exact ih lastL (i + 1) _ _ (by simpa [h0] using (hconv l f N hf).1)
      · have hlen : ((dp f s).1).length = N := by rw [hdp, hf]
        exact ih lastL (i + 1) _ _
          (by simpa [h0] using (hconv l (dp f s).1 N hlen).1)

/-- Claim C3: assuming the graph-convolution primitive preserves the row
count and projects to the layer's configured output width, the Encoder's
forward pass on an `N × input_width` feature matrix returns a matrix with
`N` rows and `output_width` columns, whatever the dropout primitive does
to values (it must keep the row count, as `torch` dropout does). -/
theorem gcn_forward_shape {G σ : Type} (conv : G → GraphConv → Mat → Mat)
    (trainDrop : ℚ → Mat → σ → Mat × σ) (training : Bool) (g : G)
    (initW : ℕ → ℕ → Mat) (inF nH outF : ℕ) (n : ℤ) (p : ℚ)
    (feats : Mat) (N : ℕ) (s : σ)
    (hconv : ∀ (l : GraphConv) (f : Mat) (M : ℕ),
      f.length = M → shape (conv g l f) M l.outFeats)
    (htd : ∀ (r : ℚ) (f : Mat) (t : σ), ((trainDrop r f t).1).length = f.length)
    (hfeat : shape feats N inF) :
    shape
      ((GCN.forward conv trainDrop training g (GCN.init initW inF nH outF n p)
          feats s).1) N outF := by
  have hdp : ∀ (f : Mat) (t : σ),
      ((dropoutRun trainDrop p training f t).1).length = f.length := by
    intro f t
    cases training with
    | false => rfl
    | true => exact htd p f t
  have hstack :
      (GCN.init initW inF nH outF n p).layers =
        (graphConvNew initW inF nH ActKind.relu ::
            List.replicate (n - 2).toNat
              (graphConvNew initW nH nH ActKind.relu)) ++
          [graphConvNew initW nH outF ActKind.noAct] := by
    simp [GCN.init]
  have h := gcnForwardAux_shape conv (dropoutRun trainDrop p training) g N
    hconv hdp
    (graphConvNew initW inF nH ActKind.relu ::
      List.replicate (n - 2).toNat (graphConvNew initW nH nH ActKind.relu))
    (graphConvNew initW nH outF ActKind.noAct) 0 feats s hfeat.1
  simpa [GCN.forward, hstack, graphConvNew] using h

/-- A zero matrix, used to instantiate abstract primitives in witnesses. -/
def zeroMat (r c : ℕ) : Mat :=
  List.replicate r (List.replicate c 0)

/-- A concrete graph-convolution primitive for witnesses: it returns a
zero matrix with the input's row count and the layer's output width. -/
def convZero (_ : Unit) (l : GraphConv) (f : Mat) : Mat :=
  zeroMat f.length l.outFeats

/-- A concrete dropout primitive for witnesses: it keeps the matrix and
the state unchanged. -/
def tdId (_ : ℚ) (f : Mat) (s : Unit) : Mat × Unit :=
  (f, s)

/-- Witness for C3 at a 1-node input with a 3-layer Encoder. -/
theorem gcn_forward_shape_witness :
    (∀ (l : GraphConv) (f : Mat) (M : ℕ),
      f.length = M → shape (convZero () l f) M l.outFeats) ∧
    (∀ (r : ℚ) (f : Mat) (t : Unit), ((tdId r f t).1).length = f.length) ∧
    shape [[0]] 1 1 ∧
    shape
      ((GCN.forward convZero tdId false () (GCN.init (fun _ _ => []) 1 2 3 3 0)
          [[0]] ()).1) 1 3 := by
  refine ⟨?_, ?_, ?_, ?_⟩
  · intro l f M hf
    constructor
    · simp [convZero, zeroMat, hf]
    · intro row hrow
      simp [convZero, zeroMat] at hrow
      simp [hrow]
  · intro r f t
    rfl
  · constructor
    · rfl
    · intro row hrow
      simp at hrow
      simp [hrow]
  · refine gcn_forward_shape convZero tdId false () (fun _ _ => []) 1 2 3 3 0
      [[0]] 1 () ?_ ?_ ?_
    · intro l f M hf
      constructor
      · simp [convZero, zeroMat, hf]
      · intro row hrow
        simp [convZero, zeroMat] at hrow
        simp [hrow]
    · intro r f t
      rfl
    · constructor
      · rfl
      · intro row hrow
        simp at hrow
        simp [hrow]

/-- One `torch.nn.Linear(in_features, out_features)` layer: weight of
shape `(out_features, in_features)` and bias of length `out_features`. -/
structure Linear : Type where
  inF : ℕ
  outF : ℕ
  weight : Mat
  bias : List ℝ

/-- The architecture of a linear layer: input and output width. -/
def Linear.arch (l : Linear) : ℕ × ℕ :=
  (l.inF, l.outF)

/-- Construction of a linear layer, with framework-default weight and
bias schemes abstracted as `initW` and `initB`. -/
def linearNew (initW : ℕ → ℕ → Mat) (initB : ℕ → List ℝ) (i o : ℕ) :
    Linear :=
  { inF := i, outF := o, weight := initW i o, bias := initB o }

/-- Dot product of two vectors (truncating to the shorter). -/
def dot (w x : List ℝ) : ℝ :=
  (List.zipWith (fun a b => a * b) w x).sum

/-- Apply a linear layer to one row: `W x + b`, one output coordinate per
weight row / bias entry. -/
def Linear.apply (l : Linear) (x : List ℝ) : List ℝ :=
  List.zipWith (fun wr b => dot wr x + b) l.weight l.bias

/-- Apply a linear layer to every row of a matrix. -/
def linM (l : Linear) (m : Mat) : Mat :=
  m.map l.apply

/-- `F.relu` applied elementwise. -/
def reluM (m : Mat) : Mat :=
  m.map (List.map (fun v => max 0 v))

/-- The logistic function `torch.sigmoid`. -/
noncomputable def sigmoid (x : ℝ) : ℝ :=
  1 / (1 + Real.exp (-x))

/-- `torch.sigmoid` applied elementwise. -/
noncomputable def sigM (m : Mat) : Mat :=
  m.map (List.map sigmoid)

/-- Elementwise product of two matrices (`x_i * x_j` in torch),
truncating to the shorter extent in each dimension. -/
def elemMul (a b : Mat) : Mat :=
  List.zipWith (List.zipWith (fun u v => u * v)) a b

/-- The `GCNLinkPredictor` module: the linear stack `self.lins` and the
dropout rate of `self.dropout`. -/
structure GCNLinkPredictor : Type where
  lins : List Linear
  dropoutRate : ℚ

/-- `GCNLinkPredictor.__init__`: input layer `in_channels →
hidden_channels`, then `num_layers - 2` hidden layers `hidden_channels →
hidden_channels`, then an output layer `hidden_channels → 1`. -/
def GCNLinkPredictor.init (initW : ℕ → ℕ → Mat) (initB : ℕ → List ℝ)
    (inC hidC : ℕ) (numLayers : ℤ) (dropout : ℚ) : GCNLinkPredictor :=
  { lins :=
      linearNew initW initB inC hidC ::
        (List.replicate (numLayers - 2).toNat
            (linearNew initW initB hidC hidC) ++
          [linearNew initW initB hidC 1]),
    dropoutRate := dropout }

/-- `nn.Linear.reset_parameters`: re-create weight and bias with the
framework-default schemes; widths unchanged. -/
def Linear.resetParams (initW : ℕ → ℕ → Mat) (initB : ℕ → List ℝ)
    (l : Linear) : Linear :=
  { l with weight := initW l.inF l.outF, bias := initB l.outF }

/-- `GCNLinkPredictor.reset_parameters`: reset every linear layer. -/
def GCNLinkPredictor.resetParameters (initW : ℕ → ℕ → Mat)
    (initB : ℕ → List ℝ) (m : GCNLinkPredictor) : GCNLinkPredictor :=
  { m with lins := m.lins.map (Linear.resetParams initW initB) }

/-- The default used for the (never reached on constructed modules)
empty-stack case of `self.lins[-1]`. -/
def linDefault : Linear :=
  { inF := 0, outF := 0, weight := [], bias := [] }

/-- `GCNLinkPredictor.forward(x_i, x_j)`: `x = x_i * x_j`; for every
layer but the last, `x = dropout(relu(lin(x)))`; then the last linear
layer and an elementwise sigmoid. -/
noncomputable def GCNLinkPredictor.forward {σ : Type}
    (trainDrop : ℚ → Mat → σ → Mat × σ) (training : Bool)
    (m : GCNLinkPredictor) (xi xj : Mat) (s : σ) : Mat × σ :=
  let dp := dropoutRun trainDrop m.dropoutRate training
  let x0 := elemMul xi xj
  let xs := m.lins.dropLast.foldl
    (fun acc l => dp (reluM (linM l acc.1)) acc.2) (x0, s)
  (sigM (linM (m.lins.getLastD linDefault) xs.1), xs.2)

lemma sigmoid_mem_unit (x : ℝ) : 0 ≤ sigmoid x ∧ sigmoid x ≤ 1 := by
  have hpos : (0 : ℝ) < 1 + Real.exp (-x) := by
    have := Real.exp_pos (-x)
    linarith
  constructor
  · exact le_of_lt (div_pos one_pos hpos)
  · rw [sigmoid, div_le_one hpos]
    have := Real.exp_pos (-x)
    linarith

lemma sigM_mem_unit (m : Mat) :
    ∀ row ∈ sigM m, ∀ v ∈ row, 0 ≤ v ∧ v ≤ 1 := by
  intro row hrow v hv
  rcases List.mem_map.1 hrow with ⟨r, _, rfl⟩
  rcases List.mem_map.1 hv with ⟨u, _, rfl⟩
  exact sigmoid_mem_unit u

lemma linM_shape (l : Linear) (x : Mat) (N : ℕ)
    (hw : l.weight.length = l.outF) (hb : l.bias.length = l.outF)
    (hx : x.length = N) : shape (linM l x) N l.outF := by
  constructor
  · simp [linM, hx]
  · intro row hrow
    rcases List.mem_map.1 hrow with ⟨r, _, rfl⟩
    simp [Linear.apply, hw, hb]

lemma sigM_rows (m : Mat) : (sigM m).length = m.length := by
  simp [sigM]

lemma sigM_row_len (m : Mat) :
    ∀ row ∈ sigM m, ∃ r ∈ m, row.length = r.length := by
  intro row hrow
  rcases List.mem_map.1 hrow with ⟨r, hr, rfl⟩
  exact ⟨r, hr, by simp⟩

lemma scorer_fold_rows {σ : Type} (dp : Mat → σ → Mat × σ)
    (hdp : ∀ (f : Mat) (s : σ), ((dp f s).1).length = f.length) :
    ∀ (ls : List Linear) (x : Mat) (s : σ),
      ((ls.foldl (fun acc l => dp (reluM (linM l acc.1)) acc.2) (x, s)).1).length
        = x.length := by
  intro ls
  induction ls with
  | nil => intro x s; rfl
  | cons l rest ih =>
      intro x s
      simp only [List.foldl_cons]
      have hstep : ((dp (reluM (linM l x)) s).1).length = x.length := by
        rw [hdp]
        simp [reluM, linM]
      calc ((rest.foldl (fun acc l => dp (reluM (linM l acc.1)) acc.2)
          (dp (reluM (linM l x)) s)).1).length
          = ((dp (reluM (linM l x)) s).1).length := by
            rw [← ih (dp (reluM (linM l x)) s).1 (dp (reluM (linM l x)) s).2]
        _ = x.length := hstep

lemma getLastD_append_singleton {α : Type} (l : List α) (a d : α) :
    (l ++ [a]).getLastD d = a := by
  induction l with
  | nil => rfl
  | cons x xs ih =>
      rw [List.cons_append]
      cases xs with
      | nil => rfl
      | cons y ys => simpa using ih

lemma scorer_init_lins (initW : ℕ → ℕ → Mat) (initB : ℕ → List ℝ)
    (inC hidC : ℕ) (n : ℤ) (p : ℚ) :
    (GCNLinkPredictor.init initW initB inC hidC n p).lins =
      (linearNew initW initB inC hidC ::
          List.replicate (n - 2).toNat (linearNew initW initB hidC hidC)) ++
        [linearNew initW initB hidC 1] := by
  simp [GCNLinkPredictor.init]

/-- Claim C4: the Scorer's forward pass — elementwise product of the two
embedding batches, linear / ReLU / dropout for every layer but the last,
the last linear layer, then an elementwise sigmoid — maps two `B ×
in_channels` batches to a `B × 1` matrix all of whose entries lie in
`[0, 1]`, provided the framework weight and bias schemes produce
`out_features` rows / entries and the dropout primitive keeps the row
count. -/
theorem scorer_forward_shape_bounds {σ : Type}
    (trainDrop : ℚ → Mat → σ → Mat × σ) (training : Bool)
    (initW : ℕ → ℕ → Mat) (initB : ℕ → List ℝ) (inC hidC : ℕ) (n : ℤ)
    (p : ℚ) (xi xj : Mat) (B : ℕ) (s : σ)
    (hW : ∀ i o, (initW i o).length = o)
    (hB : ∀ o, (initB o).length = o)
    (htd : ∀ (r : ℚ) (f : Mat) (t : σ), ((trainDrop r f t).1).length = f.length)
    (hxi : shape xi B inC) (hxj : shape xj B inC) :
    shape
      ((GCNLinkPredictor.forward trainDrop training
          (GCNLinkPredictor.init initW initB inC hidC n p) xi xj s).1) B 1 ∧
    ∀ row ∈
        (GCNLinkPredictor.forward trainDrop training
          (GCNLinkPredictor.init initW initB inC hidC n p) xi xj s).1,
      ∀ v ∈ row, 0 ≤ v ∧ v ≤ 1 := by
  set m := GCNLinkPredictor.init initW initB inC hidC n p with hmdef
  have hdp : ∀ (f : Mat) (t : σ),
      ((dropoutRun trainDrop m.dropoutRate training f t).1).length =
        f.length := by
    intro f t
    cases training with
    | false => rfl
    | true => exact htd m.dropoutRate f t
  have hfw : (GCNLinkPredictor.forward trainDrop training m xi xj s).1 =
      sigM (linM (m.lins.getLastD linDefault)
        ((m.lins.dropLast.foldl
            (fun acc l =>
              dropoutRun trainDrop m.dropoutRate training
                (reluM (linM l acc.1)) acc.2)
            (elemMul xi xj, s)).1)) := rfl
  have hgl : m.lins.getLastD linDefault = linearNew initW initB hidC 1 := by
    rw [hmdef, scorer_init_lins]
    exact getLastD_append_singleton _ _ _
  have hx0 : (elemMul xi xj).length = B := by
    simp [elemMul, hxi.1, hxj.1]
  have hfold :
      ((m.lins.dropLast.foldl
          (fun acc l =>
            dropoutRun trainDrop m.dropoutRate training
              (reluM (linM l acc.1)) acc.2)
          (elemMul xi xj, s)).1).length = B := by
    rw [scorer_fold_rows (dropoutRun trainDrop m.dropoutRate training) hdp,
      hx0]
  have hlin : shape (linM (m.lins.getLastD linDefault)
      ((m.lins.dropLast.foldl
          (fun acc l =>
            dropoutRun trainDrop m.dropoutRate training
              (reluM (linM l acc.1)) acc.2)
          (elemMul xi xj, s)).1)) B 1 := by
    rw [hgl]
    exact linM_shape _ _ B (hW hidC 1) (hB 1) hfold
  constructor
  · rw [hfw]
    constructor
    · rw [sigM_rows]
      exact hlin.1
    · intro row hrow
      rcases sigM_row_len _ row hrow with ⟨r, hr, hlen⟩
      rw [hlen]
      exact hlin.2 r hr
  · rw [hfw]
    exact sigM_mem_unit _

/-- The framework-default zero schemes used in witnesses: `initW i o` is
an `o × i` zero matrix and `initB o` a zero vector of length `o`. -/
def zeroInitW (i o : ℕ) : Mat :=
  zeroMat o i

/-- Zero bias scheme for witnesses. -/
def zeroInitB (o : ℕ) : List ℝ :=
  List.replicate o 0

/-- Witness for C4: a 2-layer Scorer on a single pair of 2-dimensional
embeddings. -/
theorem scorer_forward_shape_bounds_witness :
    (∀ i o, (zeroInitW i o).length = o) ∧
    (∀ o, (zeroInitB o).length = o) ∧
    (∀ (r : ℚ) (f : Mat) (t : Unit), ((tdId r f t).1).length = f.length) ∧
    shape [[1, 2]] 1 2 ∧ shape [[3, 4]] 1 2 ∧
    (shape
      ((GCNLinkPredictor.forward tdId false
          (GCNLinkPredictor.init zeroInitW zeroInitB 2 2 2 0)
          [[1, 2]] [[3, 4]] ()).1) 1 1 ∧
    ∀ row ∈
        (GCNLinkPredictor.forward tdId false
          (GCNLinkPredictor.init zeroInitW zeroInitB 2 2 2 0)
          [[1, 2]] [[3, 4]] ()).1,
      ∀ v ∈ row, 0 ≤ v ∧ v ≤ 1) := by
  refine ⟨?_, ?_, ?_, ?_, ?_, ?_⟩
  · intro i o
    simp [zeroInitW, zeroMat]
  · intro o
    simp [zeroInitB]
  · intro r f t
    rfl
  · exact ⟨rfl, by intro row hrow; simp at hrow; simp [hrow]⟩
  · exact ⟨rfl, by intro row hrow; simp at hrow; simp [hrow]⟩
  · refine scorer_forward_shape_bounds tdId false zeroInitW zeroInitB 2 2 2 0
      [[1, 2]] [[3, 4]] 1 () ?_ ?_ ?_ ?_ ?_
    · intro i o
      simp [zeroInitW, zeroMat]
    · intro o
      simp [zeroInitB]
    · intro r f t
      rfl
    · exact ⟨rfl, by intro row hrow; simp at hrow; simp [hrow]⟩
    · exact ⟨rfl, by intro row hrow; simp at hrow; simp [hrow]⟩

/-- Claim C5: with dropout disabled (inference mode) the Scorer is
symmetric in its two inputs, because the edge feature is the commutative
elementwise product of the two embedding batches. -/
theorem scorer_forward_symm {σ : Type} (trainDrop : ℚ → Mat → σ → Mat × σ)
    (m : GCNLinkPredictor) (xi xj : Mat) (s : σ) :
    GCNLinkPredictor.forward trainDrop false m xi xj s =
      GCNLinkPredictor.forward trainDrop false m xj xi s := by
  have hcomm : elemMul xi xj = elemMul xj xi := by
    unfold elemMul
    refine List.zipWith_comm_of_comm _ ?_ xi xj
    intro a b
    exact List.zipWith_comm_of_comm _ mul_comm a b
  unfold GCNLinkPredictor.forward
  rw [hcomm]

/-- Claim C6: for `num_layers < 2` (including 0 and negative values)
construction still succeeds — the hidden-layer range `range(num_layers -
2)` is empty and both stacks collapse to exactly the input layer followed
by the output layer. -/
theorem init_degenerate_two_layers (initW : ℕ → ℕ → Mat)
    (initB : ℕ → List ℝ) (inF nH outF inC hidC : ℕ) (n : ℤ) (p : ℚ)
    (hn : n < 2) :
    (GCN.init initW inF nH outF n p).layers =
      [graphConvNew initW inF nH ActKind.relu,
        graphConvNew initW nH outF ActKind.noAct] ∧
    (GCN.init initW inF nH outF n p).layers.length = 2 ∧
    (GCNLinkPredictor.init initW initB inC hidC n p).lins =
      [linearNew initW initB inC hidC, linearNew initW initB hidC 1] ∧
    (GCNLinkPredictor.init initW initB inC hidC n p).lins.length = 2 := by
  have h0 : (n - 2).toNat = 0 := by omega
  refine ⟨?_, ?_, ?_, ?_⟩ <;>
    simp [GCN.init, GCNLinkPredictor.init, h0]

/-- Witness for C6 at `num_layers = -1`. -/
theorem init_degenerate_two_layers_witness :
    (-1 : ℤ) < 2 ∧
    ((GCN.init zeroInitW 4 5 6 (-1) 0).layers =
        [graphConvNew zeroInitW 4 5 ActKind.relu,
          graphConvNew zeroInitW 5 6 ActKind.noAct] ∧
      (GCN.init zeroInitW 4 5 6 (-1) 0).layers.length = 2 ∧
      (GCNLinkPredictor.init zeroInitW zeroInitB 4 5 (-1) 0).lins =
        [linearNew zeroInitW zeroInitB 4 5,
          linearNew zeroInitW zeroInitB 5 1] ∧
      (GCNLinkPredictor.init zeroInitW zeroInitB 4 5 (-1) 0).lins.length =
        2) :=
  ⟨by decide,
    init_degenerate_two_layers zeroInitW zeroInitB 4 5 6 4 5 (-1) 0
      (by decide)⟩

/-- Modelled from the spec: the dropout primitive (`torch.nn.Dropout`) is
external to the repository; the spec says out-of-range dropout rates are
detected and raised by the underlying tensor runtime (which accepts any
probability between 0 and 1), not by this code. -/
def dropoutNew (p : ℚ) : Except String ℚ :=
  if 0 ≤ p ∧ p ≤ 1 then Except.ok p
  else Except.error "dropout probability has to be between 0 and 1"

/-- `GCN.__init__` with the runtime's failure surfaced: the constructor
itself checks nothing, the only failure path is `nn.Dropout(p)`. -/
def GCN.initE (initW : ℕ → ℕ → Mat) (inFeats nHidden outFeats : ℕ)
    (numLayers : ℤ) (p : ℚ) : Except String GCN :=
  match dropoutNew p with
  | Except.ok r => Except.ok (GCN.init initW inFeats nHidden outFeats numLayers r)
  | Except.error e => Except.error e

/-- `GCNLinkPredictor.__init__` with the runtime's failure surfaced: the
constructor itself checks nothing, the only failure path is
`nn.Dropout(p)`. -/
def GCNLinkPredictor.initE (initW : ℕ → ℕ → Mat) (initB : ℕ → List ℝ)
    (inC hidC : ℕ) (numLayers : ℤ) (p : ℚ) :
    Except String GCNLinkPredictor :=
  match dropoutNew p with
  | Except.ok r => Except.ok (GCNLinkPredictor.init initW initB inC hidC numLayers r)
  | Except.error e => Except.error e

/-- Whether an `Except` value is a success. -/
def exceptOk {ε α : Type} : Except ε α → Bool
  | Except.ok _ => true
  | Except.error _ => false

/-- Claim C7: the components validate nothing themselves — a constructor
fails exactly when the underlying dropout primitive fails (the failure
propagates unchanged), and in particular for every `dropout_rate` in
`[0, 1)` construction of either component succeeds. -/
theorem constructors_no_own_validation (initW : ℕ → ℕ → Mat)
    (initB : ℕ → List ℝ) (inF nH outF inC hidC : ℕ) (n : ℤ) (p : ℚ)
    (h0 : 0 ≤ p) (h1 : p < 1) :
    GCN.initE initW inF nH outF n p =
      Except.ok (GCN.init initW inF nH outF n p) ∧
    GCNLinkPredictor.initE initW initB inC hidC n p =
      Except.ok (GCNLinkPredictor.init initW initB inC hidC n p) ∧
    (∀ q : ℚ, exceptOk (GCN.initE initW inF nH outF n q) =
      exceptOk (dropoutNew q)) ∧
    (∀ q : ℚ, exceptOk (GCNLinkPredictor.initE initW initB inC hidC n q) =
      exceptOk (dropoutNew q)) ∧
    (∀ (q : ℚ) (e : String), dropoutNew q = Except.error e →
      GCN.initE initW inF nH outF n q = Except.error e ∧
      GCNLinkPredictor.initE initW initB inC hidC n q = Except.error e) := by
  have hok : dropoutNew p = Except.ok p := by
    unfold dropoutNew
    rw [if_pos ⟨h0, le_of_lt h1⟩]
  refine ⟨?_, ?_, ?_, ?_, ?_⟩
  · simp [GCN.initE, hok]
  · simp [GCNLinkPredictor.initE, hok]
  · intro q
    cases hq : dropoutNew q <;> simp [GCN.initE, hq, exceptOk]
  · intro q
    cases hq : dropoutNew q <;> simp [GCNLinkPredictor.initE, hq, exceptOk]
  · intro q e hq
    exact ⟨by simp [GCN.initE, hq], by simp [GCNLinkPredictor.initE, hq]⟩

/-- Witness for C7 at `dropout_rate = 0`. -/
theorem constructors_no_own_validation_witness :
    (0 : ℚ) ≤ 0 ∧ (0 : ℚ) < 1 ∧
    (GCN.initE zeroInitW 4 5 6 3 0 =
        Except.ok (GCN.init zeroInitW 4 5 6 3 0) ∧
      GCNLinkPredictor.initE zeroInitW zeroInitB 6 5 3 0 =
        Except.ok (GCNLinkPredictor.init zeroInitW zeroInitB 6 5 3 0) ∧
      (∀ q : ℚ, exceptOk (GCN.initE zeroInitW 4 5 6 3 q) =
        exceptOk (dropoutNew q)) ∧
      (∀ q : ℚ, exceptOk (GCNLinkPredictor.initE zeroInitW zeroInitB 6 5 3 q) =
        exceptOk (dropoutNew q)) ∧
      (∀ (q : ℚ) (e : String), dropoutNew q = Except.error e →
        GCN.initE zeroInitW 4 5 6 3 q = Except.error e ∧
        GCNLinkPredictor.initE zeroInitW zeroInitB 6 5 3 q =
          Except.error e)) :=
  ⟨by decide, by decide,
    constructors_no_own_validation zeroInitW zeroInitB 4 5 6 6 5 3 0
      (by decide) (by decide)⟩

lemma gcnForwardAux_state_false {G σ : Type}
    (conv : G → GraphConv → Mat → Mat) (td : ℚ → Mat → σ → Mat × σ)
    (r : ℚ) (g : G) :
    ∀ (ls : List GraphConv) (i : ℕ) (f : Mat) (s : σ),
      (gcnForwardAux conv (dropoutRun td r false) g i ls f s).2 = s := by
  intro ls
  induction ls with
  | nil => intro i f s; rfl
  | cons l rest ih =>
      intro i f s
      have hfs : (if i = 0 then (f, s) else dropoutRun td r false f s) =
          (f, s) := by
        by_cases h0 : i = 0 <;> simp [h0, dropoutRun]
      simp only [gcnForwardAux, hfs]
      exact ih (i + 1) (conv g l f) s

lemma scorer_fold_state_false {σ : Type} (td : ℚ → Mat → σ → Mat × σ)
    (r : ℚ) :
    ∀ (ls : List Linear) (x : Mat) (s : σ),
      ((ls.foldl
          (fun acc l => dropoutRun td r false (reluM (linM l acc.1)) acc.2)
          (x, s)).2) = s := by
  intro ls
  induction ls with
  | nil => intro x s; rfl
  | cons l rest ih =>
      intro x s
      simp only [List.foldl_cons]
      have hstep : dropoutRun td r false (reluM (linM l x)) s =
          (reluM (linM l x), s) := rfl
      rw [hstep]
      exact ih (reluM (linM l x)) s

/-- Claim C8: outside training mode the forward passes of both components
mutate no hidden state — the random state comes back unchanged — and
therefore calling `forward` a second time on the state left by the first
call, with identical inputs, returns exactly the first call's result. -/
theorem forward_inference_idempotent {G σ : Type}
    (conv : G → GraphConv → Mat → Mat) (trainDrop : ℚ → Mat → σ → Mat × σ)
    (g : G) (m : GCN) (feats : Mat) (s : σ) (m2 : GCNLinkPredictor)
    (xi xj : Mat) :
    (GCN.forward conv trainDrop false g m feats s).2 = s ∧
    GCN.forward conv trainDrop false g m feats
        ((GCN.forward conv trainDrop false g m feats s).2) =
      GCN.forward conv trainDrop false g m feats s ∧
    (GCNLinkPredictor.forward trainDrop false m2 xi xj s).2 = s ∧
    GCNLinkPredictor.forward trainDrop false m2 xi xj
        ((GCNLinkPredictor.forward trainDrop false m2 xi xj s).2) =
      GCNLinkPredictor.forward trainDrop false m2 xi xj s := by
  have h1 : (GCN.forward conv trainDrop false g m feats s).2 = s :=
    gcnForwardAux_state_false conv trainDrop m.dropoutRate g m.layers 0 feats s
  have h2 : (GCNLinkPredictor.forward trainDrop false m2 xi xj s).2 = s :=
    scorer_fold_state_false trainDrop m2.dropoutRate m2.lins.dropLast
      (elemMul xi xj) s
  exact ⟨h1, by rw [h1], h2, by rw [h2]⟩

/-- Claim C9: `reset_parameters()` replaces every layer's weights with
freshly created framework-default ones and changes nothing else: the
layer count and every layer's architecture (widths, activation) are the
same before and after. -/
theorem reset_parameters_preserves_arch (initW : ℕ → ℕ → Mat)
    (initB : ℕ → List ℝ) (m : GCN) (m2 : GCNLinkPredictor) :
    (GCN.resetParameters initW m).layers =
      m.layers.map (fun l =>
        { inFeats := l.inFeats, outFeats := l.outFeats, act := l.act,
          weight := initW l.inFeats l.outFeats }) ∧
    (GCN.resetParameters initW m).layers.length = m.layers.length ∧
    (GCN.resetParameters initW m).layers.map GraphConv.arch =
      m.layers.map GraphConv.arch ∧
    (GCNLinkPredictor.resetParameters initW initB m2).lins =
      m2.lins.map (fun l =>
        { inF := l.inF, outF := l.outF, weight := initW l.inF l.outF,
          bias := initB l.outF }) ∧
    (GCNLinkPredictor.resetParameters initW initB m2).lins.length =
      m2.lins.length ∧
    (GCNLinkPredictor.resetParameters initW initB m2).lins.map Linear.arch =
      m2.lins.map Linear.arch := by
  refine ⟨rfl, by simp [GCN.resetParameters], ?_, rfl,
    by simp [GCNLinkPredictor.resetParameters], ?_⟩
  · rw [GCN.resetParameters]
    rw [List.map_map]
    apply List.map_congr_left
    intro l _
    rfl
  · rw [GCNLinkPredictor.resetParameters]
    rw [List.map_map]
    apply List.map_congr_left
    intro l _
    rfl

/-- Claim C10: outside training mode the configured dropout rate has no
effect — two modules with identical layer stacks differing only in the
dropout rate produce identical forward outputs on every input, for both
components. -/
theorem dropout_rate_no_effect_inference {G σ : Type}
    (conv : G → GraphConv → Mat → Mat) (trainDrop : ℚ → Mat → σ → Mat × σ)
    (g : G) (layers : List GraphConv) (lins : List Linear) (p q : ℚ)
    (feats xi xj : Mat) (s : σ) :
    GCN.forward conv trainDrop false g { layers := layers, dropoutRate := p }
        feats s =
      GCN.forward conv trainDrop false g
        { layers := layers, dropoutRate := q } feats s ∧
    GCNLinkPredictor.forward trainDrop false
        { lins := lins, dropoutRate := p } xi xj s =
      GCNLinkPredictor.forward trainDrop false
        { lins := lins, dropoutRate := q } xi xj s := by
  have hdp : @dropoutRun σ trainDrop p false = @dropoutRun σ trainDrop q false := by
    funext f t
    rfl
  constructor
  · show gcnForwardAux conv (dropoutRun trainDrop p false) g 0 layers feats s =
      gcnForwardAux conv (dropoutRun trainDrop q false) g 0 layers feats s
    rw [hdp]
  · show (sigM (linM (lins.getLastD linDefault)
        ((lins.dropLast.foldl
            (fun acc l =>
              dropoutRun trainDrop p false (reluM (linM l acc.1)) acc.2)
            (elemMul xi xj, s)).1)),
      (lins.dropLast.foldl
          (fun acc l =>
            dropoutRun trainDrop p false (reluM (linM l acc.1)) acc.2)
          (elemMul xi xj, s)).2) =
      (sigM (linM (lins.getLastD linDefault)
        ((lins.dropLast.foldl
            (fun acc l =>
              dropoutRun trainDrop q false (reluM (linM l acc.1)) acc.2)
            (elemMul xi xj, s)).1)),
      (lins.dropLast.foldl
          (fun acc l =>
            dropoutRun trainDrop q false (reluM (linM l acc.1)) acc.2)
          (elemMul xi xj, s)).2)
    rw [hdp]
